import Mathlib

/-!
Shallow embedding of the process-supervision engine of
`dreamsxin/process-manager` (package `manager`, files `manager.go` and
`unix.go`).

Records are heap-allocated in Go (`*types.ProcessInfo` pointers shared
between the registry, snapshots and watcher goroutines), so the model keeps
an explicit heap (`List ProcessInfo`, addressed by index) and the registry
(`sync.Map`) maps UUID strings to heap references.  Interaction with the
operating system (UUID generation, spawn success, signal outcomes, liveness
probes, clock reads) is resolved by explicit environment parameters, and
the OS-visible calls an operation performs are returned as a trace.
-/

namespace PM

/-- Mirror of `types.ProcessInfo` (the fields used by the manager):
`hasProcess` models `Cmd.Process != nil`. -/
structure ProcessInfo where
  uuid : String
  name : String
  args : List String
  pid : Nat
  hasProcess : Bool
  running : Bool
  restart : Bool
  restartCount : Nat
  startTime : Nat
  endTime : Nat
deriving Repr, DecidableEq, Inhabited

/-- State of a `ProcessManager`: the heap of allocated records, the
`processes` map (UUID to heap reference), and whether the `shutdown`
channel has been closed. -/
structure PMState where
  heap : List ProcessInfo
  processes : List (String × Nat)
  shutdownClosed : Bool
deriving Repr, DecidableEq, Inhabited

/-- Read the record a reference points to (`nil`-free in well-formed states). -/
def heapGet (h : List ProcessInfo) (r : Nat) : Option ProcessInfo :=
  match h, r with
  | [], _ => none
  | p :: _, 0 => some p
  | _ :: t, r + 1 => heapGet t r

/-- Mutate the record a reference points to (a field write through a Go pointer). -/
def heapSet (h : List ProcessInfo) (r : Nat) (f : ProcessInfo → ProcessInfo) :
    List ProcessInfo :=
  match h, r with
  | [], _ => []
  | p :: t, 0 => f p :: t
  | p :: t, r + 1 => p :: heapSet t r f

/-- Mirror of `sync.Map.Load`. -/
def mapLoad (m : List (String × Nat)) (k : String) : Option Nat :=
  match m with
  | [] => none
  | kv :: t => if kv.1 = k then some kv.2 else mapLoad t k

/-- Mirror of `sync.Map.Store` (replace the binding if the key is present). -/
def mapStore (m : List (String × Nat)) (k : String) (v : Nat) :
    List (String × Nat) :=
  match m with
  | [] => [(k, v)]
  | kv :: t => if kv.1 = k then (k, v) :: t else kv :: mapStore t k v

/-- Mirror of `sync.Map.Delete`. -/
def mapDelete (m : List (String × Nat)) (k : String) : List (String × Nat) :=
  m.filter (fun kv => !(kv.1 = k : Bool))

/-- Error results of `syscall.Kill`: `ESRCH` (no such process) or any other error. -/
inductive KillErr where
  | esrch
  | other
deriving Repr, DecidableEq

/-- OS-visible calls an operation performs, collected as a trace. -/
inductive OSAction where
  | sigterm (pgid : Nat)
  | sigkill (pgid : Nat)
  | probeAlive (pid : Nat)
  | sleepMs (ms : Nat)
  | osWait (pid : Nat)
  | launchWatcher (uuid : String)
deriving Repr, DecidableEq

/-- Outcomes the OS hands back during one `killProcessPlatform` run:
the `SIGTERM` result, the liveness probe after the 100ms grace window,
and the `SIGKILL` result. -/
structure KillEnv where
  termErr : Option KillErr
  aliveAfterGrace : Bool
  killErr : Option KillErr
deriving Repr, DecidableEq, Inhabited

/-- Mirror of `unix.go killProcessPlatform`: `SIGTERM` to the process group
(`ESRCH` means the group is already gone and is success), 100ms grace
sleep, liveness probe (`isProcessRunning`, i.e. `kill(pid, 0)`), and
`SIGKILL` to the group only if still alive (`ESRCH` again swallowed).
Returns the trace of OS calls and the Go error (`none` = `nil`). -/
def killProcessPlatform (hasProcess : Bool) (pid : Nat) (env : KillEnv) :
    List OSAction × Option KillErr :=
  if hasProcess then
    match env.termErr with
    | some KillErr.esrch => ([OSAction.sigterm pid], none)
    | _ =>
      if env.aliveAfterGrace then
        match env.killErr with
        | some KillErr.other =>
          ([OSAction.sigterm pid, OSAction.sleepMs 100, OSAction.probeAlive pid,
            OSAction.sigkill pid], some KillErr.other)
        | _ =>
          ([OSAction.sigterm pid, OSAction.sleepMs 100, OSAction.probeAlive pid,
            OSAction.sigkill pid], none)
      else
        ([OSAction.sigterm pid, OSAction.sleepMs 100, OSAction.probeAlive pid], none)
  else ([], none)

/-- Mirror of `manager.go killProcess`: the `cmd.Process == nil` guard then
the platform call. -/
def killProcess (hasProcess : Bool) (pid : Nat) (env : KillEnv) :
    List OSAction × Option KillErr :=
  if hasProcess then killProcessPlatform hasProcess pid env else ([], none)

/-- Environment of one `StartProcess` call: the generated UUID
(`util.GenerateUUID`), the `cmd.Start()` outcome (`some pid` on success,
`none` on spawn failure), and the clock value for `StartTime`. -/
structure SpawnEnv where
  uuid : String
  spawn : Option Nat
  now : Nat
deriving Repr, DecidableEq, Inhabited

/-- Mirror of `StartProcess`: allocate the record, attempt `cmd.Start()`;
on failure return the error with nothing stored; on success mark the
record running, store it in the registry and launch the watcher goroutine
before returning the UUID. -/
def StartProcess (pm : PMState) (env : SpawnEnv) (name : String)
    (args : List String) (restart : Bool) :
    Except String String × PMState × List OSAction :=
  let r := pm.heap.length
  let info : ProcessInfo :=
    { uuid := env.uuid, name := name, args := args, pid := 0,
      hasProcess := false, running := false, restart := restart,
      restartCount := 0, startTime := env.now, endTime := 0 }
  let pm1 : PMState := { pm with heap := pm.heap ++ [info] }
  match env.spawn with
  | none => (Except.error "failed to start process", pm1, [])
  | some pid =>
    let pm2 : PMState :=
      { pm1 with
        heap := heapSet pm1.heap r
          (fun p => { p with running := true, pid := pid, hasProcess := true }) }
    let pm3 : PMState := { pm2 with processes := mapStore pm2.processes env.uuid r }
    (Except.ok env.uuid, pm3, [OSAction.launchWatcher env.uuid])

/-- Mirror of `ListProcesses`: the returned slice holds the record pointers
(heap references), appended while ranging over the map. -/
def ListProcesses (pm : PMState) : List Nat :=
  pm.processes.map Prod.snd

/-- Mirror of `GetProcess` (returns the record pointer). -/
def GetProcess (pm : PMState) (uuid : String) : Option Nat :=
  mapLoad pm.processes uuid

/-- Contents a client sees when dereferencing a slice of record pointers
against the current heap. -/
def derefList (h : List ProcessInfo) (rs : List Nat) : List (Option ProcessInfo) :=
  rs.map (heapGet h)

/-- Environment of one `StopProcess` call: the kill outcomes plus the
`isProcessRunning` probe taken on the kill-error path. -/
structure StopEnv where
  kill : KillEnv
  stillAliveAfterKill : Bool
deriving Repr, DecidableEq, Inhabited

/-- Mirror of `StopProcess`: `NotFound` if the UUID is unknown; otherwise
clear `Restart` on the record, kill if running (a kill error is forgiven
when the liveness probe says the process is already gone), and delete the
record from the registry.  Returns the Go error (`none` = `nil`). -/
def StopProcess (pm : PMState) (uuid : String) (env : StopEnv) :
    Option String × PMState × List OSAction :=
  match mapLoad pm.processes uuid with
  | none => (some ("process with UUID " ++ uuid ++ " not found"), pm, [])
  | some r =>
    match heapGet pm.heap r with
    | none => (some ("process with UUID " ++ uuid ++ " not found"), pm, [])
    | some info =>
      let pm1 : PMState :=
        { pm with heap := heapSet pm.heap r (fun p => { p with restart := false }) }
      if info.running then
        let kr := killProcess info.hasProcess info.pid env.kill
        match kr.2 with
        | some _ =>
          if env.stillAliveAfterKill then
            (some "failed to stop process", pm1,
             kr.1 ++ [OSAction.probeAlive info.pid])
          else
            (none, { pm1 with processes := mapDelete pm1.processes uuid },
             kr.1 ++ [OSAction.probeAlive info.pid])
        | none =>
          (none, { pm1 with processes := mapDelete pm1.processes uuid }, kr.1)
      else
        (none, { pm1 with processes := mapDelete pm1.processes uuid }, [])

/-- Environment of one `RestartProcess` call: kill outcomes for the old
process and the `StartProcess` environment for the replacement. -/
structure RestartEnv where
  kill : KillEnv
  newStart : SpawnEnv
deriving Repr, DecidableEq, Inhabited

/-- Mirror of `RestartProcess`: `NotFound` if unknown; kill the old process
if running (with a 100ms settle sleep); delete the old record; start the
replacement with the same name/args/restart; then set the new record's
`RestartCount` to the old record's current value plus one. -/
def RestartProcess (pm : PMState) (uuid : String) (env : RestartEnv) :
    Except String String × PMState × List OSAction :=
  match mapLoad pm.processes uuid with
  | none => (Except.error ("process with UUID " ++ uuid ++ " not found"), pm, [])
  | some r =>
    match heapGet pm.heap r with
    | none => (Except.error ("process with UUID " ++ uuid ++ " not found"), pm, [])
    | some info =>
      let kr :=
        if info.running then killProcess info.hasProcess info.pid env.kill
        else ([], none)
      match kr.2 with
      | some _ =>
        (Except.error "failed to stop process for restart", pm, kr.1)
      | none =>
        let tr0 := if info.running then kr.1 ++ [OSAction.sleepMs 100] else kr.1
        let pmDel : PMState := { pm with processes := mapDelete pm.processes uuid }
        let st := StartProcess pmDel env.newStart info.name info.args info.restart
        match st.1 with
        | Except.error e =>
          (Except.error ("failed to restart process: " ++ e), st.2.1, tr0 ++ st.2.2)
        | Except.ok newUuid =>
          let oldInfo := (heapGet st.2.1.heap r).getD info
          let pmFin : PMState :=
            match mapLoad st.2.1.processes newUuid with
            | some nr =>
              { st.2.1 with
                heap := heapSet st.2.1.heap nr
                  (fun p => { p with restartCount := oldInfo.restartCount + 1 }) }
            | none => st.2.1
          (Except.ok newUuid, pmFin, tr0 ++ st.2.2)

/-- One goroutine of the `StopAll` fan-out: clear the record's `Restart`
flag and attempt termination if it is running, ignoring the kill error. -/
def stopAllStep (osk : Nat → KillEnv) (acc : PMState × List OSAction)
    (kv : String × Nat) : PMState × List OSAction :=
  match heapGet acc.1.heap kv.2 with
  | none => acc
  | some info =>
    let pm1 : PMState :=
      { acc.1 with
        heap := heapSet acc.1.heap kv.2 (fun p => { p with restart := false }) }
    if info.running then
      (pm1, acc.2 ++ (killProcess info.hasProcess info.pid (osk info.pid)).1)
    else (pm1, acc.2)

/-- Mirror of `StopAll`: fan out over every registered record, clearing its
`Restart` flag and attempting termination if it is running while ignoring
the kill error, then clear the registry.  Each goroutine touches only its
own record, so the joint effect of the parallel fan-out is this fold. -/
def StopAll (pm : PMState) (osk : Nat → KillEnv) : PMState × List OSAction :=
  let folded := pm.processes.foldl (stopAllStep osk) (pm, ([] : List OSAction))
  ({ folded.1 with processes := [] }, folded.2)

/-- Mirror of Go `close(ch)`: closing an already-closed channel panics. -/
def closeChan (closed : Bool) : Except String Bool :=
  if closed then Except.error "close of closed channel" else Except.ok true

/-- Mirror of `Shutdown`: `close(pm.shutdown)` (a panic if the channel is
already closed), then `StopAll` and the watcher-goroutine drain.  The
result is `error` when the close panics. -/
def Shutdown (pm : PMState) (osk : Nat → KillEnv) :
    Except String (PMState × List OSAction) :=
  match closeChan pm.shutdownClosed with
  | Except.error e => Except.error e
  | Except.ok _ =>
    let sa := StopAll { pm with shutdownClosed := true } osk
    Except.ok sa

/-- Outcome of the `select` in `WaitForProcess`: the context timed out
first, or the waiter goroutine delivered (`werr` says whether its
`Process.Wait` returned an error). -/
inductive WaitOutcome where
  | timedOut
  | completed (werr : Bool)
deriving Repr, DecidableEq

/-- Mirror of `WaitForProcess`: `NotFound` if unknown; otherwise a goroutine
calls `processInfo.Cmd.Process.Wait()` directly (an OS-level wait on the
same handle the watcher waits on) and the result races a timeout. -/
def WaitForProcess (pm : PMState) (uuid : String) (outcome : WaitOutcome) :
    Option String × List OSAction :=
  match mapLoad pm.processes uuid with
  | none => (some ("process with UUID " ++ uuid ++ " not found"), [])
  | some r =>
    match heapGet pm.heap r with
    | none => (some ("process with UUID " ++ uuid ++ " not found"), [])
    | some info =>
      let tr := if info.hasProcess then [OSAction.osWait info.pid] else []
      match outcome with
      | WaitOutcome.timedOut => (some ("wait timeout for process " ++ uuid), tr)
      | WaitOutcome.completed werr =>
        (if werr then some "wait error" else none, tr)

/-- Environment of one watcher run: the clock value at exit and the
restart environment used if the auto-restart path fires. -/
structure MonitorEnv where
  exitTime : Nat
  restartEnv : RestartEnv
deriving Repr, DecidableEq, Inhabited

/-- Mirror of `monitorProcess` (the watcher goroutine): the canonical
`cmd.Wait()`, then `running=false`/`EndTime`, then the shutdown check,
then the auto-restart path (increment `RestartCount`, 2s delay, re-check
registration and `Restart`, invoke `RestartProcess`), else delete. -/
def monitorProcess (pm : PMState) (uuid : String) (r : Nat) (env : MonitorEnv) :
    PMState × List OSAction :=
  let waitTr :=
    match heapGet pm.heap r with
    | some p => [OSAction.osWait p.pid]
    | none => []
  let pm1 : PMState :=
    { pm with
      heap := heapSet pm.heap r
        (fun p => { p with running := false, endTime := env.exitTime }) }
  if pm1.shutdownClosed then
    ({ pm1 with processes := mapDelete pm1.processes uuid }, waitTr)
  else
    match heapGet pm1.heap r with
    | none => ({ pm1 with processes := mapDelete pm1.processes uuid }, waitTr)
    | some info =>
      if info.restart then
        let pm2 : PMState :=
          { pm1 with
            heap := heapSet pm1.heap r
              (fun p => { p with restartCount := p.restartCount + 1 }) }
        let tr2 := waitTr ++ [OSAction.sleepMs 2000]
        match mapLoad pm2.processes uuid with
        | some r2 =>
          match heapGet pm2.heap r2 with
          | some cur =>
            if cur.restart then
              let rp := RestartProcess pm2 uuid env.restartEnv
              (rp.2.1, tr2 ++ rp.2.2)
            else ({ pm2 with processes := mapDelete pm2.processes uuid }, tr2)
          | none => ({ pm2 with processes := mapDelete pm2.processes uuid }, tr2)
        | none => ({ pm2 with processes := mapDelete pm2.processes uuid }, tr2)
      else
        ({ pm1 with processes := mapDelete pm1.processes uuid }, waitTr)

/-- Well-formed state: every registry reference points into the heap. -/
def WF (pm : PMState) : Prop :=
  ∀ kv ∈ pm.processes, kv.2 < pm.heap.length

instance (pm : PMState) : Decidable (WF pm) := by
  unfold WF; infer_instance

/-- Concrete running record used by the concrete-input theorems. -/
def exInfo : ProcessInfo :=
  { uuid := "u1", name := "sleep", args := ["1"], pid := 5, hasProcess := true,
    running := true, restart := true, restartCount := 0, startTime := 1,
    endTime := 0 }

/-- Concrete one-record manager state used by the concrete-input theorems. -/
def exState : PMState :=
  { heap := [exInfo], processes := [("u1", 0)], shutdownClosed := false }

/-- Benign kill environment (process exits on `SIGTERM`). -/
def exKillEnv : KillEnv :=
  { termErr := none, aliveAfterGrace := false, killErr := none }

/-- Concrete watcher environment whose restart path spawns `"u2"` with PID 6. -/
def exMonEnv : MonitorEnv :=
  { exitTime := 10,
    restartEnv := { kill := exKillEnv,
                    newStart := { uuid := "u2", spawn := some 6, now := 11 } } }

/-- Benign stop environment (the process dies inside the grace window). -/
def exStopEnv : StopEnv := { kill := exKillEnv, stillAliveAfterKill := false }

/-- Stop environment in which the process survives even `SIGKILL` and the
post-kill liveness probe still reports it alive. -/
def exStopEnvStuck : StopEnv :=
  { kill := { termErr := none, aliveAfterGrace := true, killErr := some KillErr.other },
    stillAliveAfterKill := true }

theorem heapGet_lt {h : List ProcessInfo} {r : Nat} {p : ProcessInfo}
    (hg : heapGet h r = some p) : r < h.length := by
  induction h generalizing r with
  | nil => simp [heapGet] at hg
  | cons a t ih =>
    cases r with
    | zero => simp
    | succ n =>
      simp only [heapGet] at hg
      have := ih hg
      simp only [List.length_cons]
      omega

theorem heapSet_length (h : List ProcessInfo) (r : Nat) (f : ProcessInfo → ProcessInfo) :
    (heapSet h r f).length = h.length := by
  induction h generalizing r with
  | nil => simp [heapSet]
  | cons a t ih =>
    cases r with
    | zero => simp [heapSet]
    | succ n => simp [heapSet, ih]

theorem heapGet_heapSet_self (h : List ProcessInfo) (r : Nat)
    (f : ProcessInfo → ProcessInfo) :
    heapGet (heapSet h r f) r = (heapGet h r).map f := by
  induction h generalizing r with
  | nil => simp [heapSet, heapGet]
  | cons a t ih =>
    cases r with
    | zero => simp [heapSet, heapGet]
    | succ n => simp [heapSet, heapGet, ih]

theorem heapGet_heapSet_ne (h : List ProcessInfo) {r r' : Nat}
    (f : ProcessInfo → ProcessInfo) (hne : r' ≠ r) :
    heapGet (heapSet h r f) r' = heapGet h r' := by
  induction h generalizing r r' with
  | nil => simp [heapSet]
  | cons a t ih =>
    cases r with
    | zero =>
      cases r' with
      | zero => exact absurd rfl hne
      | succ m => simp [heapSet, heapGet]
    | succ n =>
      cases r' with
      | zero => simp [heapSet, heapGet]
      | succ m =>
        simp only [heapSet, heapGet]
        exact ih (fun hc => hne (by omega))

theorem heapGet_append_lt {h : List ProcessInfo} (l : List ProcessInfo) {r : Nat}
    (hr : r < h.length) : heapGet (h ++ l) r = heapGet h r := by
  induction h generalizing r with
  | nil => simp at hr
  | cons a t ih =>
    cases r with
    | zero => simp [heapGet]
    | succ n =>
      simp only [List.cons_append, heapGet]
      exact ih (by simpa using hr)

theorem heapGet_concat_self (h : List ProcessInfo) (p : ProcessInfo) :
    heapGet (h ++ [p]) h.length = some p := by
  induction h with
  | nil => simp [heapGet]
  | cons a t ih => simpa [heapGet] using ih

theorem mapLoad_mapStore_self (m : List (String × Nat)) (k : String) (v : Nat) :
    mapLoad (mapStore m k v) k = some v := by
  induction m with
  | nil => simp [mapStore, mapLoad]
  | cons kv t ih =>
    by_cases hk : kv.1 = k
    · simp [mapStore, hk, mapLoad]
    · simp [mapStore, hk, mapLoad, ih]

theorem mapLoad_mapDelete_self (m : List (String × Nat)) (k : String) :
    mapLoad (mapDelete m k) k = none := by
  induction m with
  | nil => simp [mapDelete, mapLoad]
  | cons kv t ih =>
    by_cases hk : kv.1 = k
    · simpa [mapDelete, List.filter, hk] using ih
    · simpa [mapDelete, List.filter, hk, mapLoad] using ih

theorem mapLoad_mapStore_ne (m : List (String × Nat)) {k k' : String} (v : Nat)
    (hne : k' ≠ k) : mapLoad (mapStore m k v) k' = mapLoad m k' := by
  have hkk : ¬(k = k') := fun h => hne h.symm
  induction m with
  | nil => simp [mapStore, mapLoad, hkk]
  | cons kv t ih =>
    by_cases hk : kv.1 = k
    · simp [mapStore, hk, mapLoad, hkk]
    · simp [mapStore, hk, mapLoad, ih]

theorem mapStore_snd_mem (m : List (String × Nat)) (k : String) (v : Nat) :
    v ∈ (mapStore m k v).map Prod.snd := by
  induction m with
  | nil => simp [mapStore]
  | cons kv t ih =>
    by_cases hk : kv.1 = k
    · simp [mapStore, hk]
    · simp only [mapStore, hk, if_false, List.map_cons, List.mem_cons]
      exact Or.inr ih

theorem heapSet_concat_self (h : List ProcessInfo) (p : ProcessInfo)
    (f : ProcessInfo → ProcessInfo) :
    heapSet (h ++ [p]) h.length f = h ++ [f p] := by
  induction h with
  | nil => simp [heapSet]
  | cons a t ih => simpa [heapSet] using ih

theorem heapGet_isSome_of_lt {h : List ProcessInfo} {r : Nat}
    (hr : r < h.length) : ∃ p, heapGet h r = some p := by
  induction h generalizing r with
  | nil => simp at hr
  | cons a t ih =>
    cases r with
    | zero => exact ⟨a, rfl⟩
    | succ n => exact ih (by simpa using hr)

theorem map_eq_map_mem {α β : Type} (f g : α → β) (l : List α)
    (h : l.map f = l.map g) : ∀ x ∈ l, f x = g x := by
  induction l with
  | nil => intro x hx; simp at hx
  | cons a t ih =>
    simp only [List.map_cons, List.cons.injEq] at h
    intro x hx
    rcases List.mem_cons.mp hx with rfl | hx
    · exact h.1
    · exact ih h.2 x hx

theorem startProcess_err (pm : PMState) (env : SpawnEnv) (name : String)
    (args : List String) (rs : Bool) (hfail : env.spawn = none) :
    StartProcess pm env name args rs =
      (Except.error "failed to start process",
       { heap := pm.heap ++
           [{ uuid := env.uuid, name := name, args := args, pid := 0,
              hasProcess := false, running := false, restart := rs,
              restartCount := 0, startTime := env.now, endTime := 0 }],
         processes := pm.processes,
         shutdownClosed := pm.shutdownClosed },
       []) := by
  simp only [StartProcess, hfail]

theorem startProcess_ok (pm : PMState) (env : SpawnEnv) (name : String)
    (args : List String) (rs : Bool) (pid : Nat) (hspawn : env.spawn = some pid) :
    StartProcess pm env name args rs =
      (Except.ok env.uuid,
       { heap := pm.heap ++
           [{ uuid := env.uuid, name := name, args := args, pid := pid,
              hasProcess := true, running := true, restart := rs,
              restartCount := 0, startTime := env.now, endTime := 0 }],
         processes := mapStore pm.processes env.uuid pm.heap.length,
         shutdownClosed := pm.shutdownClosed },
       [OSAction.launchWatcher env.uuid]) := by
  simp only [StartProcess, hspawn]
  rw [heapSet_concat_self]

theorem stopAllStep_fst (osk : Nat → KillEnv) (acc : PMState × List OSAction)
    (kv : String × Nat) :
    (stopAllStep osk acc kv).1 =
      if (heapGet acc.1.heap kv.2).isSome then
        { acc.1 with
          heap := heapSet acc.1.heap kv.2 (fun p => { p with restart := false }) }
      else acc.1 := by
  rcases hg : heapGet acc.1.heap kv.2 with _ | info
  · simp [stopAllStep, hg]
  · by_cases hrun : info.running <;> simp [stopAllStep, hg, hrun]

theorem stopAllStep_snd_mono (osk : Nat → KillEnv) (acc : PMState × List OSAction)
    (kv : String × Nat) (x : OSAction) (hx : x ∈ acc.2) :
    x ∈ (stopAllStep osk acc kv).2 := by
  rcases hg : heapGet acc.1.heap kv.2 with _ | info
  · simpa [stopAllStep, hg] using hx
  · by_cases hrun : info.running <;> simp [stopAllStep, hg, hrun, hx]

theorem sigterm_mem_killProcess (pid : Nat) (e : KillEnv) :
    OSAction.sigterm pid ∈ (killProcess true pid e).1 := by
  rcases e with ⟨te, ag, ke⟩
  rcases te with _ | te
  all_goals try cases te
  all_goals rcases ke with _ | ke
  all_goals try cases ke
  all_goals cases ag
  all_goals simp [killProcess, killProcessPlatform]

theorem stopAllStep_clears_self (osk : Nat → KillEnv) (acc : PMState × List OSAction)
    (kv : String × Nat) (hlt : kv.2 < acc.1.heap.length) :
    (heapGet (stopAllStep osk acc kv).1.heap kv.2).map ProcessInfo.restart
      = some false := by
  obtain ⟨p, hp⟩ := heapGet_isSome_of_lt hlt
  rw [stopAllStep_fst]
  simp [hp, heapGet_heapSet_self]

theorem stopAllStep_preserves_cleared (osk : Nat → KillEnv)
    (acc : PMState × List OSAction) (kv : String × Nat) (r : Nat)
    (h : (heapGet acc.1.heap r).map ProcessInfo.restart = some false) :
    (heapGet (stopAllStep osk acc kv).1.heap r).map ProcessInfo.restart
      = some false := by
  rw [stopAllStep_fst]
  split
  · by_cases hr : r = kv.2
    · rw [hr] at h ⊢
      rcases hg : heapGet acc.1.heap kv.2 with _ | p
      · rw [hg] at h; simp at h
      · simp [heapGet_heapSet_self, hg]
    · simpa [heapGet_heapSet_ne _ _ hr] using h
  · exact h

theorem stopAllStep_heapGet_proj (osk : Nat → KillEnv)
    (acc : PMState × List OSAction) (kv : String × Nat) (r : Nat) :
    (heapGet (stopAllStep osk acc kv).1.heap r).map
        (fun p => (p.pid, p.running, p.hasProcess)) =
      (heapGet acc.1.heap r).map (fun p => (p.pid, p.running, p.hasProcess)) := by
  rw [stopAllStep_fst]
  split
  · by_cases hr : r = kv.2
    · rw [hr]
      rcases hg : heapGet acc.1.heap kv.2 with _ | p <;>
        simp [heapGet_heapSet_self, hg]
    · simp [heapGet_heapSet_ne _ _ hr]
  · rfl

theorem foldl_stopAll_fst_processes (osk : Nat → KillEnv)
    (l : List (String × Nat)) (acc : PMState × List OSAction) :
    (l.foldl (stopAllStep osk) acc).1.processes = acc.1.processes := by
  induction l generalizing acc with
  | nil => rfl
  | cons kv t ih =>
    rw [List.foldl_cons, ih, stopAllStep_fst]
    split <;> rfl

theorem foldl_stopAll_heap_length (osk : Nat → KillEnv)
    (l : List (String × Nat)) (acc : PMState × List OSAction) :
    (l.foldl (stopAllStep osk) acc).1.heap.length = acc.1.heap.length := by
  induction l generalizing acc with
  | nil => rfl
  | cons kv t ih =>
    rw [List.foldl_cons, ih, stopAllStep_fst]
    split <;> simp [heapSet_length]

theorem foldl_stopAll_restart_false (osk : Nat → KillEnv)
    (l : List (String × Nat)) (acc : PMState × List OSAction) (r : Nat)
    (h : (r ∈ l.map Prod.snd ∧ r < acc.1.heap.length) ∨
         (heapGet acc.1.heap r).map ProcessInfo.restart = some false) :
    (heapGet (l.foldl (stopAllStep osk) acc).1.heap r).map ProcessInfo.restart
      = some false := by
  induction l generalizing acc with
  | nil =>
    rcases h with ⟨hm, _⟩ | h
    · simp at hm
    · exact h
  | cons kv t ih =>
    rw [List.foldl_cons]
    apply ih
    rcases h with ⟨hm, hlt⟩ | hdone
    · rw [List.map_cons] at hm
      rcases List.mem_cons.mp hm with heq | hm'
      · refine Or.inr ?_
        rw [heq]
        exact stopAllStep_clears_self osk acc kv (heq ▸ hlt)
      · refine Or.inl ⟨hm', ?_⟩
        rw [stopAllStep_fst]
        split <;> simp [heapSet_length, hlt]
    · exact Or.inr (stopAllStep_preserves_cleared osk acc kv r hdone)

theorem foldl_stopAll_trace_mono (osk : Nat → KillEnv)
    (l : List (String × Nat)) (acc : PMState × List OSAction) (x : OSAction)
    (hx : x ∈ acc.2) : x ∈ (l.foldl (stopAllStep osk) acc).2 := by
  induction l generalizing acc with
  | nil => exact hx
  | cons kv t ih => exact ih _ (stopAllStep_snd_mono osk acc kv x hx)

theorem stopAllStep_kills_running (osk : Nat → KillEnv)
    (acc : PMState × List OSAction) (kv : String × Nat) (info : ProcessInfo)
    (hg : (heapGet acc.1.heap kv.2).map (fun p => (p.pid, p.running, p.hasProcess))
            = some (info.pid, true, true)) :
    OSAction.sigterm info.pid ∈ (stopAllStep osk acc kv).2 := by
  rcases hg0 : heapGet acc.1.heap kv.2 with _ | p
  · rw [hg0] at hg; simp at hg
  · rw [hg0] at hg
    simp only [Option.map_some', Option.some.injEq, Prod.mk.injEq] at hg
    obtain ⟨h1, h2, h3⟩ := hg
    simp only [stopAllStep, hg0, h2, if_true]
    rw [h3, h1]
    exact List.mem_append_right _ (sigterm_mem_killProcess _ _)

theorem foldl_stopAll_sigterm (osk : Nat → KillEnv) (l : List (String × Nat))
    (acc : PMState × List OSAction) (kv : String × Nat) (info : ProcessInfo)
    (hkv : kv ∈ l)
    (hg : (heapGet acc.1.heap kv.2).map (fun p => (p.pid, p.running, p.hasProcess))
            = some (info.pid, true, true)) :
    OSAction.sigterm info.pid ∈ (l.foldl (stopAllStep osk) acc).2 := by
  induction l generalizing acc with
  | nil => simp at hkv
  | cons kv' t ih =>
    rw [List.foldl_cons]
    rcases List.mem_cons.mp hkv with rfl | hkv'
    · exact foldl_stopAll_trace_mono osk t _ _
        (stopAllStep_kills_running osk acc kv info hg)
    · exact ih _ hkv' (by rw [stopAllStep_heapGet_proj]; exact hg)

theorem stopAllStep_fst_osk (osk osk' : Nat → KillEnv)
    (acc acc' : PMState × List OSAction) (h : acc.1 = acc'.1) (kv : String × Nat) :
    (stopAllStep osk acc kv).1 = (stopAllStep osk' acc' kv).1 := by
  rw [stopAllStep_fst, stopAllStep_fst, h]

theorem foldl_stopAll_fst_osk (osk osk' : Nat → KillEnv)
    (l : List (String × Nat)) (acc acc' : PMState × List OSAction)
    (h : acc.1 = acc'.1) :
    (l.foldl (stopAllStep osk) acc).1 = (l.foldl (stopAllStep osk') acc').1 := by
  induction l generalizing acc acc' with
  | nil => exact h
  | cons kv t ih => exact ih _ _ (stopAllStep_fst_osk osk osk' acc acc' h kv)

theorem restartProcess_heapGet_lt (pm : PMState) (uuid : String) (env : RestartEnv)
    {r : Nat} (hr : r < pm.heap.length) :
    heapGet (RestartProcess pm uuid env).2.1.heap r = heapGet pm.heap r := by
  cases hm : mapLoad pm.processes uuid with
  | none => simp [RestartProcess, hm]
  | some r0 =>
    cases hg : heapGet pm.heap r0 with
    | none => simp [RestartProcess, hm, hg]
    | some info =>
      by_cases hrun : info.running
      · cases hk : (killProcess info.hasProcess info.pid env.kill).2 with
        | some e => simp [RestartProcess, hm, hg, hrun, hk]
        | none =>
          cases hs : env.newStart.spawn with
          | none =>
            simp [RestartProcess, hm, hg, hrun, hk, startProcess_err _ _ _ _ _ hs,
                  heapGet_append_lt _ hr]
          | some pid =>
            simp [RestartProcess, hm, hg, hrun, hk, startProcess_ok _ _ _ _ _ _ hs,
                  mapLoad_mapStore_self, heapGet_heapSet_ne _ _ (Nat.ne_of_lt hr),
                  heapGet_append_lt _ hr]
      · cases hs : env.newStart.spawn with
        | none =>
          simp [RestartProcess, hm, hg, hrun, startProcess_err _ _ _ _ _ hs,
                heapGet_append_lt _ hr]
        | some pid =>
          simp [RestartProcess, hm, hg, hrun, startProcess_ok _ _ _ _ _ _ hs,
                mapLoad_mapStore_self, heapGet_heapSet_ne _ _ (Nat.ne_of_lt hr),
                heapGet_append_lt _ hr]

theorem monitorProcess_running_false (pm : PMState) (uuid : String) (r : Nat)
    (env : MonitorEnv) (info : ProcessInfo)
    (hheap : heapGet pm.heap r = some info) :
    (heapGet (monitorProcess pm uuid r env).1.heap r).map ProcessInfo.running
      = some false := by
  have hr : r < pm.heap.length := heapGet_lt hheap
  have h1 : heapGet (heapSet pm.heap r
      (fun p => { p with running := false, endTime := env.exitTime })) r =
      some { info with running := false, endTime := env.exitTime } := by
    rw [heapGet_heapSet_self, hheap]; rfl
  cases hsc : pm.shutdownClosed with
  | true => simp [monitorProcess, hsc, hheap, h1]
  | false =>
    cases hres : info.restart with
    | false => simp [monitorProcess, hsc, hheap, h1, hres]
    | true =>
      have h2 : heapGet (heapSet (heapSet pm.heap r
          (fun p => { p with running := false, endTime := env.exitTime })) r
          (fun p => { p with restartCount := p.restartCount + 1 })) r =
          some { uuid := info.uuid, name := info.name, args := info.args,
                 pid := info.pid, hasProcess := info.hasProcess,
                 running := false, restart := info.restart,
                 restartCount := info.restartCount + 1,
                 startTime := info.startTime, endTime := env.exitTime } := by
        rw [heapGet_heapSet_self, h1]; rfl
      cases hml : mapLoad pm.processes uuid with
      | none => simp [monitorProcess, hsc, hheap, h1, hres, hml, h2]
      | some r2 =>
        cases hg2 : heapGet (heapSet (heapSet pm.heap r
            (fun p => { p with running := false, endTime := env.exitTime })) r
            (fun p => { p with restartCount := p.restartCount + 1 })) r2 with
        | none => simp [monitorProcess, hsc, hheap, h1, hres, hml, hg2, h2]
        | some cur =>
          cases hcr : cur.restart with
          | false => simp [monitorProcess, hsc, hheap, h1, hres, hml, hg2, hcr, h2]
          | true =>
            have hr2 : r < (heapSet (heapSet pm.heap r
                (fun p => { p with running := false, endTime := env.exitTime })) r
                (fun p => { p with restartCount := p.restartCount + 1 })).length := by
              simpa [heapSet_length] using hr
            have hre := restartProcess_heapGet_lt
              { heap := heapSet (heapSet pm.heap r (fun p => { p with running := false, endTime := env.exitTime })) r (fun p => { p with restartCount := p.restartCount + 1 }), processes := pm.processes, shutdownClosed := false }
              uuid env.restartEnv (r := r) hr2
            simp [monitorProcess, hsc, hheap, h1, hres, hml, hg2, hcr, hre, h2]

/-- C8: the POSIX termination strategy signals the process group with
`SIGTERM` (treating `ESRCH`, group already gone, as success and returning
immediately), otherwise waits the 100ms grace window, probes liveness, and
sends `SIGKILL` to the group only if the process is still alive; `ESRCH`
from either signal is treated as success, not an error. -/
theorem killProcessPlatform_graceful_then_forceful (pid : Nat) (env : KillEnv) :
    (env.termErr = some KillErr.esrch →
      killProcessPlatform true pid env = ([OSAction.sigterm pid], none)) ∧
    (env.termErr ≠ some KillErr.esrch →
      (killProcessPlatform true pid env).1 =
        [OSAction.sigterm pid, OSAction.sleepMs 100, OSAction.probeAlive pid] ++
          (if env.aliveAfterGrace then [OSAction.sigkill pid] else []) ∧
      (env.aliveAfterGrace = false →
        (killProcessPlatform true pid env).2 = none) ∧
      (env.killErr ≠ some KillErr.other →
        (killProcessPlatform true pid env).2 = none)) := by
  rcases env with ⟨te, ag, ke⟩
  rcases te with _ | te
  all_goals try cases te
  all_goals rcases ke with _ | ke
  all_goals try cases ke
  all_goals cases ag
  all_goals simp [killProcessPlatform]

/-- C8 witness: the strategy instantiated where the process survives the
grace window, so the forceful `SIGKILL` is sent. -/
theorem killProcessPlatform_graceful_then_forceful_witness :
    ({ termErr := none, aliveAfterGrace := true, killErr := none } : KillEnv).termErr
        ≠ some KillErr.esrch ∧
    (killProcessPlatform true 5
        { termErr := none, aliveAfterGrace := true, killErr := none }).1 =
      [OSAction.sigterm 5, OSAction.sleepMs 100, OSAction.probeAlive 5,
       OSAction.sigkill 5] := by
  have h := (killProcessPlatform_graceful_then_forceful 5
      { termErr := none, aliveAfterGrace := true, killErr := none }).2 (by decide)
  exact ⟨by decide, by simpa using h.1⟩

/-- C6: if the OS spawn fails, StartProcess returns the failure
synchronously, launches no watcher, and leaves the registry exactly as it
was: same process map and (for a well-formed state) the same snapshot
contents. -/
theorem startProcess_spawn_failure_atomic (pm : PMState) (env : SpawnEnv)
    (name : String) (args : List String) (rs : Bool)
    (hfail : env.spawn = none) :
    (StartProcess pm env name args rs).1 =
      Except.error "failed to start process" ∧
    (StartProcess pm env name args rs).2.1.processes = pm.processes ∧
    (StartProcess pm env name args rs).2.2 = [] ∧
    (WF pm →
      derefList (StartProcess pm env name args rs).2.1.heap (ListProcesses pm) =
        derefList pm.heap (ListProcesses pm)) := by
  rw [startProcess_err pm env name args rs hfail]
  refine ⟨rfl, rfl, rfl, ?_⟩
  intro hwf
  unfold derefList ListProcesses
  apply List.map_congr_left
  intro x hx
  obtain ⟨kv, hkv, rfl⟩ := List.mem_map.mp hx
  exact heapGet_append_lt _ (hwf kv hkv)

/-- C6 witness: a failing spawn at a concrete one-record state. -/
theorem startProcess_spawn_failure_atomic_witness :
    (StartProcess exState { uuid := "u9", spawn := none, now := 7 } "x" [] false).1
      = Except.error "failed to start process" ∧
    (StartProcess exState { uuid := "u9", spawn := none, now := 7 } "x" [] false).2.1.processes
      = exState.processes ∧
    derefList (StartProcess exState { uuid := "u9", spawn := none, now := 7 } "x" [] false).2.1.heap
        (ListProcesses exState)
      = derefList exState.heap (ListProcesses exState) := by
  have h := startProcess_spawn_failure_atomic exState
    { uuid := "u9", spawn := none, now := 7 } "x" [] false rfl
  exact ⟨h.1, h.2.1, h.2.2.2 (by decide)⟩

/-- C7: every successful StartProcess returns the generated id, which is
registered (GetProcess finds it, its reference is in the ListProcesses
snapshot) with running=true before StartProcess returns, and the watcher
launch is the only task action of the call. -/
theorem startProcess_success_registers (pm : PMState) (env : SpawnEnv)
    (name : String) (args : List String) (rs : Bool) (pid : Nat)
    (hspawn : env.spawn = some pid) :
    (StartProcess pm env name args rs).1 = Except.ok env.uuid ∧
    GetProcess (StartProcess pm env name args rs).2.1 env.uuid
      = some pm.heap.length ∧
    pm.heap.length ∈ ListProcesses (StartProcess pm env name args rs).2.1 ∧
    heapGet (StartProcess pm env name args rs).2.1.heap pm.heap.length =
      some { uuid := env.uuid, name := name, args := args, pid := pid,
             hasProcess := true, running := true, restart := rs,
             restartCount := 0, startTime := env.now, endTime := 0 } ∧
    (StartProcess pm env name args rs).2.2 =
      [OSAction.launchWatcher env.uuid] := by
  rw [startProcess_ok pm env name args rs pid hspawn]
  refine ⟨rfl, ?_, ?_, ?_, rfl⟩
  · simp only [GetProcess]
    exact mapLoad_mapStore_self _ _ _
  · simp only [ListProcesses]
    exact mapStore_snd_mem _ _ _
  · exact heapGet_concat_self _ _

/-- C7 witness: a successful spawn at a concrete one-record state. -/
theorem startProcess_success_registers_witness :
    (StartProcess exState { uuid := "u7", spawn := some 9, now := 3 } "echo" ["hi"] false).1
      = Except.ok "u7" ∧
    GetProcess (StartProcess exState { uuid := "u7", spawn := some 9, now := 3 } "echo" ["hi"] false).2.1 "u7"
      = some 1 ∧
    heapGet (StartProcess exState { uuid := "u7", spawn := some 9, now := 3 } "echo" ["hi"] false).2.1.heap 1 =
      some { uuid := "u7", name := "echo", args := ["hi"], pid := 9,
             hasProcess := true, running := true, restart := false,
             restartCount := 0, startTime := 3, endTime := 0 } := by
  have h := startProcess_success_registers exState
    { uuid := "u7", spawn := some 9, now := 3 } "echo" ["hi"] false 9 rfl
  exact ⟨h.1, h.2.1, h.2.2.2.1⟩

/-- C10: StopProcess clears the record's autoRestart flag before the
termination attempt, so when the kill fails and the post-kill liveness
probe still reports the process alive, StopProcess returns the error while
the record is still registered and its autoRestart flag is already false. -/
theorem stopProcess_failure_keeps_record (pm : PMState) (uuid : String)
    (env : StopEnv) (r : Nat) (info : ProcessInfo) (e : KillErr)
    (hload : mapLoad pm.processes uuid = some r)
    (hheap : heapGet pm.heap r = some info)
    (hrun : info.running = true)
    (hk : (killProcess info.hasProcess info.pid env.kill).2 = some e)
    (hstill : env.stillAliveAfterKill = true) :
    (StopProcess pm uuid env).1 = some "failed to stop process" ∧
    mapLoad (StopProcess pm uuid env).2.1.processes uuid = some r ∧
    heapGet (StopProcess pm uuid env).2.1.heap r =
      some { info with restart := false } := by
  refine ⟨?_, ?_, ?_⟩ <;>
    simp [StopProcess, hload, hheap, hrun, hk, hstill, heapGet_heapSet_self]

/-- C10 witness: a stuck process at a concrete one-record state. -/
theorem stopProcess_failure_keeps_record_witness :
    (StopProcess exState "u1" exStopEnvStuck).1 = some "failed to stop process" ∧
    mapLoad (StopProcess exState "u1" exStopEnvStuck).2.1.processes "u1" = some 0 ∧
    heapGet (StopProcess exState "u1" exStopEnvStuck).2.1.heap 0 =
      some { exInfo with restart := false } := by
  have h := stopProcess_failure_keeps_record exState "u1" exStopEnvStuck 0 exInfo
    KillErr.other rfl rfl rfl (by decide) rfl
  exact h

/-- C5: Stop is idempotent: on an unknown id StopProcess returns NotFound
with the state untouched and no OS actions, and after a first successful
StopProcess removed the record, a second StopProcess on the same id
returns NotFound with the registry unchanged. -/
theorem stopProcess_idempotent (pm : PMState) (uuid : String)
    (env env' : StopEnv) :
    (mapLoad pm.processes uuid = none →
      StopProcess pm uuid env =
        (some ("process with UUID " ++ uuid ++ " not found"), pm, [])) ∧
    ((StopProcess pm uuid env).1 = none →
      StopProcess (StopProcess pm uuid env).2.1 uuid env' =
        (some ("process with UUID " ++ uuid ++ " not found"),
         (StopProcess pm uuid env).2.1, [])) := by
  constructor
  · intro h
    simp [StopProcess, h]
  · intro hsucc
    have hdel : mapLoad (StopProcess pm uuid env).2.1.processes uuid = none := by
      cases hm : mapLoad pm.processes uuid with
      | none => simp [StopProcess, hm] at hsucc
      | some r =>
        cases hg : heapGet pm.heap r with
        | none => simp [StopProcess, hm, hg] at hsucc
        | some info =>
          by_cases hrun : info.running
          · cases hk : (killProcess info.hasProcess info.pid env.kill).2 with
            | some e =>
              by_cases hst : env.stillAliveAfterKill
              · simp [StopProcess, hm, hg, hrun, hk, hst] at hsucc
              · simp [StopProcess, hm, hg, hrun, hk, hst, mapLoad_mapDelete_self]
            | none => simp [StopProcess, hm, hg, hrun, hk, mapLoad_mapDelete_self]
          · simp [StopProcess, hm, hg, hrun, mapLoad_mapDelete_self]
    generalize hX : (StopProcess pm uuid env).2.1 = X at hdel ⊢
    simp [StopProcess, hdel]

/-- C5 witness: stopping the concrete record succeeds, and the repeated
stop on the same id reports NotFound with the state unchanged; an unknown
id reports NotFound directly. -/
theorem stopProcess_idempotent_witness :
    mapLoad exState.processes "zz" = none ∧
    StopProcess exState "zz" exStopEnv =
      (some ("process with UUID " ++ "zz" ++ " not found"), exState, []) ∧
    (StopProcess exState "u1" exStopEnv).1 = none ∧
    StopProcess (StopProcess exState "u1" exStopEnv).2.1 "u1" exStopEnv =
      (some ("process with UUID " ++ "u1" ++ " not found"),
       (StopProcess exState "u1" exStopEnv).2.1, []) := by
  refine ⟨by decide, ?_, by decide, ?_⟩
  · exact (stopProcess_idempotent exState "zz" exStopEnv exStopEnv).1 (by decide)
  · exact (stopProcess_idempotent exState "u1" exStopEnv exStopEnv).2 (by decide)

/-- C2: the code's Shutdown is not idempotent: the first call succeeds
(one stopping transition), but a second call on the resulting state runs
`close` on the already-closed shutdown channel, which panics in Go —
contradicting the required crash-free idempotency. -/
theorem shutdown_double_close_panics :
    Shutdown exState (fun _ => exKillEnv) =
      Except.ok
        ({ heap := [{ uuid := "u1", name := "sleep", args := ["1"], pid := 5,
                      hasProcess := true, running := true, restart := false,
                      restartCount := 0, startTime := 1, endTime := 0 }],
           processes := [], shutdownClosed := true },
         [OSAction.sigterm 5, OSAction.sleepMs 100, OSAction.probeAlive 5]) ∧
    Shutdown
        { heap := [{ uuid := "u1", name := "sleep", args := ["1"], pid := 5,
                     hasProcess := true, running := true, restart := false,
                     restartCount := 0, startTime := 1, endTime := 0 }],
          processes := [], shutdownClosed := true }
        (fun _ => exKillEnv) =
      Except.error "close of closed channel" := by
  exact ⟨rfl, rfl⟩

/-- C3: WaitForProcess spawns a goroutine that calls `Process.Wait()`
directly on the registered record's handle, an OS-level wait on the same
PID the watcher's canonical `cmd.Wait()` sits in — so two OS waits race
for the same exit status, contradicting the single-wait requirement. -/
theorem waitForProcess_second_os_wait :
    OSAction.osWait 5 ∈ (WaitForProcess exState "u1" (WaitOutcome.completed false)).2 ∧
    OSAction.osWait 5 ∈ (monitorProcess exState "u1" 0 exMonEnv).2 ∧
    (WaitForProcess exState "u1" (WaitOutcome.completed false)).1 = none := by
  exact ⟨by decide, by decide, rfl⟩

/-- C9: StopAll disables auto-restart on every registered record, attempts
termination of every running record (a `SIGTERM` to its group appears in
the fan-out trace), ignores individual termination outcomes (the final
state does not depend on the kill results), and afterwards the registry is
empty: ListProcesses returns the empty sequence. -/
theorem stopAll_clears_registry (pm : PMState) (osk osk' : Nat → KillEnv)
    (hwf : WF pm) :
    ListProcesses (StopAll pm osk).1 = [] ∧
    (∀ r ∈ ListProcesses pm,
      (heapGet (StopAll pm osk).1.heap r).map ProcessInfo.restart = some false) ∧
    (∀ kv ∈ pm.processes, ∀ info, heapGet pm.heap kv.2 = some info →
      info.running = true → info.hasProcess = true →
      OSAction.sigterm info.pid ∈ (StopAll pm osk).2) ∧
    (StopAll pm osk).1 = (StopAll pm osk').1 := by
  refine ⟨?_, ?_, ?_, ?_⟩
  · simp [StopAll, ListProcesses]
  · intro r hr
    obtain ⟨kv, hkv, rfl⟩ := List.mem_map.mp hr
    have h := foldl_stopAll_restart_false osk pm.processes (pm, []) kv.2
      (Or.inl ⟨by simpa [ListProcesses] using hr, hwf kv hkv⟩)
    simpa [StopAll] using h
  · intro kv hkv info hg hrun hhas
    have h := foldl_stopAll_sigterm osk pm.processes (pm, []) kv info hkv
      (by simp [hg, hrun, hhas])
    simpa [StopAll] using h
  · have h := foldl_stopAll_fst_osk osk osk' pm.processes (pm, []) (pm, []) rfl
    simp [StopAll, h]

/-- C9 witness: StopAll on the concrete one-record state empties the
registry, clears the record's restart flag and carries its kill attempt. -/
theorem stopAll_clears_registry_witness :
    WF exState ∧
    ListProcesses (StopAll exState (fun _ => exKillEnv)).1 = [] ∧
    (heapGet (StopAll exState (fun _ => exKillEnv)).1.heap 0).map
        ProcessInfo.restart = some false ∧
    OSAction.sigterm 5 ∈ (StopAll exState (fun _ => exKillEnv)).2 := by
  have h := stopAll_clears_registry exState (fun _ => exKillEnv)
    (fun _ => exKillEnv) (by decide)
  refine ⟨by decide, h.1, ?_, ?_⟩
  · exact h.2.1 0 (by decide)
  · exact h.2.2.1 ("u1", 0) (by decide) exInfo (by decide) (by decide) (by decide)

/-- C4 counterexample: the snapshot returned by ListProcesses is not a
point-in-time copy of record contents: at a concrete state, after the
watcher mutates the record (running=false, endedAt set), dereferencing the
snapshot taken before the mutation yields different contents. -/
theorem snapshot_contents_mutate_cex :
    derefList (monitorProcess exState "u1" 0 exMonEnv).1.heap
        (ListProcesses exState) ≠
      derefList exState.heap (ListProcesses exState) := by decide

/-- C4 (amended): the ListProcesses snapshot fixes membership (it is a
fresh slice of record pointers), but the records themselves are shared by
reference: once the watcher of a registered running record fires, the
record's running flag is false and dereferencing the earlier snapshot
shows the mutated contents, so the snapshot is a live view of record
fields, not a copy of them. -/
theorem snapshot_shares_live_records (pm : PMState) (uuid : String) (r : Nat)
    (env : MonitorEnv) (info : ProcessInfo)
    (hmem : r ∈ ListProcesses pm)
    (hheap : heapGet pm.heap r = some info)
    (hrun : info.running = true) :
    (heapGet (monitorProcess pm uuid r env).1.heap r).map ProcessInfo.running
      = some false ∧
    derefList (monitorProcess pm uuid r env).1.heap (ListProcesses pm) ≠
      derefList pm.heap (ListProcesses pm) := by
  have h1 := monitorProcess_running_false pm uuid r env info hheap
  refine ⟨h1, ?_⟩
  intro heq
  simp only [derefList] at heq
  have hpt := map_eq_map_mem _ _ _ heq r hmem
  rw [hpt, hheap] at h1
  simp [hrun] at h1

/-- C4 witness: the amended statement instantiated at the concrete
one-record state mutated by its watcher. -/
theorem snapshot_shares_live_records_witness :
    (heapGet (monitorProcess exState "u1" 0 exMonEnv).1.heap 0).map
        ProcessInfo.running = some false ∧
    derefList (monitorProcess exState "u1" 0 exMonEnv).1.heap
        (ListProcesses exState) ≠
      derefList exState.heap (ListProcesses exState) := by
  exact snapshot_shares_live_records exState "u1" 0 exMonEnv exInfo
    (by decide) (by decide) (by decide)

/-- C1 counterexample: at a concrete state whose running record has
autoRestart=true and restartCount 0, the watcher's auto-restart path
installs the replacement under the fresh id with restartCount 2, not the
prior count plus one: `monitorProcess` increments the shared record and
`RestartProcess` then adds one more on top of the incremented value. -/
theorem autoRestart_plus_one_cex :
    (heapGet (monitorProcess exState "u1" 0 exMonEnv).1.heap 1).map
        ProcessInfo.restartCount = some 2 ∧
    mapLoad (monitorProcess exState "u1" 0 exMonEnv).1.processes "u2" = some 1 ∧
    exInfo.restartCount = 0 ∧ (2 : Nat) ≠ 0 + 1 := by decide

/-- C1 (amended): for every process whose record has autoRestart=true when
it naturally exits outside shutdown and whose restart spawn succeeds, the
auto-restart path installs a record under a different (fresh) id whose
restartCount equals the prior record's restartCount plus exactly two (one
increment by the watcher, one more by the RestartProcess mechanics), and
the old id is gone from the registry. -/
theorem autoRestart_installs_plus_two (pm : PMState) (uuid : String) (r : Nat)
    (env : MonitorEnv) (info : ProcessInfo) (pid : Nat)
    (hload : mapLoad pm.processes uuid = some r)
    (hheap : heapGet pm.heap r = some info)
    (hres : info.restart = true)
    (hshut : pm.shutdownClosed = false)
    (hspawn : env.restartEnv.newStart.spawn = some pid)
    (hfresh : env.restartEnv.newStart.uuid ≠ uuid) :
    mapLoad (monitorProcess pm uuid r env).1.processes
        env.restartEnv.newStart.uuid = some pm.heap.length ∧
    mapLoad (monitorProcess pm uuid r env).1.processes uuid = none ∧
    heapGet (monitorProcess pm uuid r env).1.heap pm.heap.length =
      some { uuid := env.restartEnv.newStart.uuid, name := info.name,
             args := info.args, pid := pid, hasProcess := true,
             running := true, restart := true,
             restartCount := info.restartCount + 2,
             startTime := env.restartEnv.newStart.now, endTime := 0 } := by
  have hr : r < pm.heap.length := heapGet_lt hheap
  have h1 : heapGet (heapSet pm.heap r (fun p => { p with running := false, endTime := env.exitTime })) r = some { info with running := false, endTime := env.exitTime } := by
    rw [heapGet_heapSet_self, hheap]; rfl
  have h2 : heapGet (heapSet (heapSet pm.heap r (fun p => { p with running := false, endTime := env.exitTime })) r (fun p => { p with restartCount := p.restartCount + 1 })) r = some { uuid := info.uuid, name := info.name, args := info.args, pid := info.pid, hasProcess := info.hasProcess, running := false, restart := info.restart, restartCount := info.restartCount + 1, startTime := info.startTime, endTime := env.exitTime } := by
    rw [heapGet_heapSet_self, h1]; rfl
  have hlen2 : (heapSet (heapSet pm.heap r (fun p => { p with running := false, endTime := env.exitTime })) r (fun p => { p with restartCount := p.restartCount + 1 })).length = pm.heap.length := by
    simp [heapSet_length]
  have hr2 : r < (heapSet (heapSet pm.heap r (fun p => { p with running := false, endTime := env.exitTime })) r (fun p => { p with restartCount := p.restartCount + 1 })).length := by
    rw [hlen2]; exact hr
  have hgc : ∀ (x : ProcessInfo) (g : ProcessInfo → ProcessInfo), heapSet (heapSet (heapSet pm.heap r (fun p => { p with running := false, endTime := env.exitTime })) r (fun p => { p with restartCount := p.restartCount + 1 }) ++ [x]) pm.heap.length g = heapSet (heapSet pm.heap r (fun p => { p with running := false, endTime := env.exitTime })) r (fun p => { p with restartCount := p.restartCount + 1 }) ++ [g x] := by
    intro x g
    rw [← hlen2, heapSet_concat_self]
  have hgl : ∀ (x : ProcessInfo), heapGet (heapSet (heapSet pm.heap r (fun p => { p with running := false, endTime := env.exitTime })) r (fun p => { p with restartCount := p.restartCount + 1 }) ++ [x]) pm.heap.length = some x := by
    intro x
    rw [← hlen2, heapGet_concat_self]
  refine ⟨?_, ?_, ?_⟩ <;>
    simp [monitorProcess, RestartProcess, hshut, hheap, h1, h2, hres, hload,
          startProcess_ok _ _ _ _ _ _ hspawn, mapLoad_mapStore_self,
          mapLoad_mapStore_ne _ _ (Ne.symm hfresh), mapLoad_mapDelete_self,
          heapGet_append_lt _ hr2, hgc, hgl, hlen2]

/-- C1 witness: the amended statement instantiated at the concrete
one-record state: the replacement record "u2" carries restartCount 2. -/
theorem autoRestart_installs_plus_two_witness :
    mapLoad (monitorProcess exState "u1" 0 exMonEnv).1.processes "u2" = some 1 ∧
    mapLoad (monitorProcess exState "u1" 0 exMonEnv).1.processes "u1" = none ∧
    heapGet (monitorProcess exState "u1" 0 exMonEnv).1.heap 1 =
      some { uuid := "u2", name := "sleep", args := ["1"], pid := 6,
             hasProcess := true, running := true, restart := true,
             restartCount := 2, startTime := 11, endTime := 0 } := by
  have h := autoRestart_installs_plus_two exState "u1" 0 exMonEnv exInfo 6
    rfl rfl rfl rfl rfl (by decide)
  simpa [exState, exInfo, exMonEnv] using h

end PM
